import Mathlib

/-!
Shallow embedding of the geometry/layout core of the woodworking joint
template generators (`Box-Joint.py`, `Dovetail-Joint.py`,
`Joint-Template-Generator.py`).

Real-valued computations of the Python source (floats) are embedded as
rationals.  `int(round(...))` is embedded by `pyRound`, Python's
round-half-to-even on the exact rational value.  The potentially
non-terminating `while` loops of the source are embedded with explicit
fuel, returning `none` when the fuel runs out before the loop exits.
-/

namespace Woodworking

/-- Python's `round` (round half to even) on rationals, as used in
`int(round(x))` throughout the source. -/
def pyRound (q : ℚ) : ℤ :=
  if q - ⌊q⌋ < 1/2 then ⌊q⌋
  else if 1/2 < q - ⌊q⌋ then ⌊q⌋ + 1
  else if ⌊q⌋ % 2 = 0 then ⌊q⌋ else ⌊q⌋ + 1

/-- `mm_to_px = dpi / 25.4` (`Box-Joint.py` line 35 and the analogous lines
in the other two programs). -/
def mmToPx (dpi : ℤ) : ℚ := (dpi : ℚ) / (127/5)

/-- `int(round(mm * mm_to_px))`, the uniform mm→px conversion of the source. -/
def pxOf (mm : ℚ) (dpi : ℤ) : ℤ := pyRound (mm * mmToPx dpi)

/-- One span of the box-joint layout: start offset, width (px) and whether it
is a solid finger (drawn) or a gap.  The source draws solid spans and skips
gap spans; every iteration of the finger loop corresponds to one `Seg`. -/
structure Seg where
  start : ℤ
  width : ℤ
  solid : Bool
deriving DecidableEq, Repr

/-- The finger loop of `generate_box_image` (`Joint-Template-Generator.py`
lines 62-67) and `Box-Joint.py` lines 81-87:

    while x < end_x:
        seg_width = min(finger_width_px, end_x - x)
        ... draw if draw_finger ...
        x += seg_width
        draw_finger = not draw_finger

embedded with explicit fuel; `none` means the fuel ran out with the loop
condition still true (the source loop would still be running). -/
def boxSegmentsAux (fw endX : ℤ) : ℕ → ℤ → Bool → Option (List Seg)
  | 0, x, _ => if x < endX then none else some []
  | n+1, x, b =>
    if x < endX then
      (boxSegmentsAux fw endX n (x + min fw (endX - x)) (!b)).map
        (fun rest => ⟨x, min fw (endX - x), b⟩ :: rest)
    else some []

/-- The box-joint segmenter of `generate_box_image` / `Box-Joint.py`
`generate_template`, with the loop given `fuel` iterations:
`margin_px = int(round(5 * mm_to_px))`, `board_width_px`,
`finger_width_px`, `x = left_x = margin_px`, `end_x = left_x + board_width_px`. -/
def boxFingerSegmentsFuel (Wmm Fmm : ℚ) (dpi : ℤ) (startWithFinger : Bool)
    (fuel : ℕ) : Option (List Seg) :=
  let marginPx := pxOf 5 dpi
  let boardPx := pxOf Wmm dpi
  let fingerPx := pxOf Fmm dpi
  boxSegmentsAux fingerPx (marginPx + boardPx) fuel marginPx startWithFinger

/-- The box-joint segmenter with fuel `board_width_px + 1`, which is
provably sufficient whenever `finger_width_px ≥ 1` (each iteration then
advances `x` by at least one pixel). -/
def boxFingerSegments (Wmm Fmm : ℚ) (dpi : ℤ) (startWithFinger : Bool) :
    Option (List Seg) :=
  boxFingerSegmentsFuel Wmm Fmm dpi startWithFinger ((pxOf Wmm dpi).toNat + 1)

/-- `[b, !b, b, ...]` of length `n`: the strict solid/gap alternation pattern
starting from phase `b`. -/
def altList (b : Bool) : ℕ → List Bool
  | 0 => []
  | n+1 => b :: altList (!b) n

/-- One dovetail tail polygon, recorded by the x-coordinates of its four
corners (the y-coordinates are always `top_y` for the two top corners and
`bottom_y` for the two bottom corners in the source). -/
structure TailPoly where
  leftTopX : ℚ
  rightTopX : ℚ
  rightBottomX : ℚ
  leftBottomX : ℚ
deriving DecidableEq, Repr

instance : Inhabited TailPoly := ⟨⟨0, 0, 0, 0⟩⟩

/-- `total_units = num_tails * tail_units + (num_tails + 1) * pin_units`
with `tail_units = 1.0`, `pin_units = pin_fraction = 0.5`. -/
def totalUnits (N : ℕ) : ℚ := (N : ℚ) * 1 + ((N : ℚ) + 1) * (1/2)

/-- `unit = board_width / total_units`. -/
def unitWidth (W : ℚ) (N : ℕ) : ℚ := W / totalUnits N

/-- `tail_top_width = tail_units * unit` with `tail_units = 1.0`. -/
def tailTopWidth (W : ℚ) (N : ℕ) : ℚ := 1 * unitWidth W N

/-- `pin_width = pin_units * unit` with `pin_units = 0.5`. -/
def pinWidth (W : ℚ) (N : ℕ) : ℚ := (1/2) * unitWidth W N

/-- `offset = board_height / ratio_val` (dovetail slope 1:R). -/
def slopeOffset (H R : ℚ) : ℚ := H / R

/-- One iteration of the tail loop: given the top-left x, top-right x and the
slope offset, build the polygon, clamping an inverted bottom edge to its
midpoint (`Joint-Template-Generator.py` lines 159-172, `Dovetail-Joint.py`
lines 120-134, `save_dovetail_svg` lines 258-271). -/
def mkTail (lt rt offset : ℚ) : TailPoly :=
  if rt - offset ≤ lt + offset then
    ⟨lt, rt, ((lt + offset) + (rt - offset)) / 2, ((lt + offset) + (rt - offset)) / 2⟩
  else ⟨lt, rt, rt - offset, lt + offset⟩

/-- The tail loop common to `generate_dovetail_image`, `Dovetail-Joint.py`'s
`generate_template` (both run it on pixel quantities with `leftX = margin_px`)
and `save_dovetail_svg` (millimeter quantities, `leftX = 0`):

    tail_start_x = left_x + pin_width
    for i in range(num_tails):
        tail_left_top_x = tail_start_x + i * (tail_top_width + pin_width)
        ...
-/
def dovetailTails (leftX W H : ℚ) (N : ℕ) (R : ℚ) : List TailPoly :=
  (List.range N).map fun (i : ℕ) =>
    mkTail (leftX + pinWidth W N + (i : ℚ) * (tailTopWidth W N + pinWidth W N))
      (leftX + pinWidth W N + (i : ℚ) * (tailTopWidth W N + pinWidth W N)
        + tailTopWidth W N)
      (slopeOffset H R)

/-- The millimeter-space tail geometry of `save_dovetail_svg`
(`Joint-Template-Generator.py` lines 227-278). -/
def dovetailTailsMm (W H : ℚ) (N : ℕ) (R : ℚ) : List TailPoly :=
  dovetailTails 0 W H N R

/-- The pixel-space tail geometry of `generate_dovetail_image`
(`Joint-Template-Generator.py` lines 105-173) and of `Dovetail-Joint.py`'s
`generate_template` (lines 58-136): board extents are rounded to pixels
first, `left_x = margin_px`. -/
def dovetailTailsPx (Wmm Hmm : ℚ) (N : ℕ) (R : ℚ) (dpi : ℤ) : List TailPoly :=
  dovetailTails (pxOf 5 dpi) (pxOf Wmm dpi) (pxOf Hmm dpi) N R

/-! ## Ratio parsing

Python string primitives used by `parse_ratio` (`str.strip`, `in`,
`str.split`, `float`) are embedded over `List Char`.  `float` is modelled on
plain decimal literals: optional sign, digits with an optional single
fractional part (exponent, inf/nan and underscore forms are outside the
model). -/

/-- Python `str.strip()`: drop leading and trailing whitespace. -/
def pyStrip (s : List Char) : List Char :=
  ((s.dropWhile Char.isWhitespace).reverse.dropWhile Char.isWhitespace).reverse

/-- Python `text.split(":")`: split on every colon, keeping empty parts. -/
def splitColon : List Char → List Char → List (List Char)
  | [], acc => [acc.reverse]
  | c :: cs, acc =>
    if c = ':' then acc.reverse :: splitColon cs []
    else splitColon cs (c :: acc)

/-- The value of a digit run, most significant first. -/
def digitsToNat (ds : List Char) : ℕ :=
  ds.foldl (fun n c => 10 * n + (c.toNat - 48)) 0

/-- Unsigned decimal literal: `digits`, `digits.digits`, `digits.` or
`.digits` (at least one digit overall). -/
def parseDecimal (cs : List Char) : Option ℚ :=
  let intPart := cs.takeWhile Char.isDigit
  let rest := cs.dropWhile Char.isDigit
  match rest with
  | [] => if intPart.isEmpty then none else some (digitsToNat intPart)
  | '.' :: frac =>
    if frac.all Char.isDigit && !(intPart.isEmpty && frac.isEmpty) then
      some ((digitsToNat intPart : ℚ) + (digitsToNat frac : ℚ) / 10 ^ frac.length)
    else none
  | _ => none

/-- Python `float(s)` on plain decimal literals: surrounding whitespace and
an optional sign, then an unsigned decimal literal; `none` when `float`
would raise `ValueError`. -/
def parseFloat (s : List Char) : Option ℚ :=
  match pyStrip s with
  | '+' :: rest => parseDecimal rest
  | '-' :: rest => (parseDecimal rest).map Neg.neg
  | cs => parseDecimal cs

/-- `parse_ratio` of `Joint-Template-Generator.py` (lines 87-102): strip,
then either `L:R ↦ R/L` (rejecting `L = 0` and non-numeric sides) or a bare
float. -/
def parse_ratio (text : String) : Except String ℚ :=
  let t := pyStrip text.toList
  if t.contains ':' then
    let parts := splitColon t []
    match parseFloat (parts.getD 0 []) with
    | none => .error "could not convert string to float"
    | some left =>
      match parseFloat (parts.getD 1 []) with
      | none => .error "could not convert string to float"
      | some right =>
        if left = 0 then .error "Ratio left side cannot be zero."
        else .ok (right / left)
  else
    match parseFloat t with
    | none => .error "could not convert string to float"
    | some v => .ok v

/-- `parse_ratio` of `Dovetail-Joint.py` (lines 9-30): same structure, but
every failure of the colon branch (including the explicit zero-left raise,
which the `except Exception` there re-wraps) reports the format message, and
a failing bare float reports the value message. -/
def parse_ratio_dj (text : String) : Except String ℚ :=
  let t := pyStrip text.toList
  if t.contains ':' then
    let parts := splitColon t []
    match parseFloat (parts.getD 0 []) with
    | none => .error "Invalid ratio format. Use e.g. 6 or 1:6"
    | some left =>
      match parseFloat (parts.getD 1 []) with
      | none => .error "Invalid ratio format. Use e.g. 6 or 1:6"
      | some right =>
        if left = 0 then .error "Invalid ratio format. Use e.g. 6 or 1:6"
        else .ok (right / left)
  else
    match parseFloat t with
    | none => .error "Invalid ratio value. Use e.g. 6 or 1:6"
    | some v => .ok v

/-- `true` exactly when the parser raised (a `ValueError` in the source). -/
def ratioFails (r : Except String ℚ) : Bool :=
  match r with
  | .error _ => true
  | .ok _ => false

/-! ## Request-level control flow -/

/-- Outcome of one generation request: a validation error shown with
`messagebox.showerror("Invalid input", ...)`, an unexpected error shown with
the generic handler, or a saved template (recorded by its tail geometry). -/
inductive GenResult where
  | validationError (msg : String)
  | unexpectedError (msg : String)
  | saved (tails : List TailPoly)
deriving DecidableEq

def GenResult.isSaved : GenResult → Bool
  | .saved _ => true
  | _ => false

def GenResult.isValidationError : GenResult → Bool
  | .validationError _ => true
  | _ => false

/-- `generate_template` of `Dovetail-Joint.py` (lines 33-175) up to the tail
geometry: parse the ratio (a raised `ValueError` is shown as "Invalid
input", i.e. a validation error), check `board_width_mm <= 0 or
board_height_mm <= 0 or num_tails <= 0 or dpi <= 0` — the ratio value itself
is never validated — and run the layout, where `offset_px =
board_height_px / ratio_val` raises `ZeroDivisionError` (a generic error)
when the ratio is zero. -/
def dovetailJointGenerate (Wmm Hmm : ℚ) (numTails dpi : ℤ)
    (ratioText : String) : GenResult :=
  match parse_ratio_dj ratioText with
  | .error msg => .validationError msg
  | .ok ratio =>
    if Wmm ≤ 0 ∨ Hmm ≤ 0 ∨ numTails ≤ 0 ∨ dpi ≤ 0 then
      .validationError "All numeric values must be greater than zero."
    else if ratio = 0 then
      .unexpectedError "division by zero"
    else
      .saved (dovetailTailsPx Wmm Hmm numTails.toNat ratio dpi)

/-- The dovetail branch of `generate_templates` in
`Joint-Template-Generator.py` (lines 299-338): board/DPI positivity check,
the at-least-one-output-format check, `num_tails < 1` check, ratio parse,
then the `ratio_val <= 0` validation (line 335) before any layout runs. -/
def generateTemplatesDovetail (Wmm Hmm : ℚ) (dpi : ℤ) (anyOutput : Bool)
    (numTails : ℤ) (ratioText : String) : GenResult :=
  if Wmm ≤ 0 ∨ Hmm ≤ 0 ∨ dpi ≤ 0 then
    .validationError "Board dimensions and DPI must be > 0."
  else if !anyOutput then
    .validationError "Select at least one output format."
  else if numTails < 1 then
    .validationError "Number of tails must be at least 1."
  else
    match parse_ratio ratioText with
    | .error msg => .validationError msg
    | .ok r =>
      if r ≤ 0 then .validationError "Dovetail ratio must be > 0."
      else .saved (dovetailTailsPx Wmm Hmm numTails.toNat r dpi)

/-! ## Ruler -/

/-- `ruler_length_mm = min(board_width_mm, 200)`. -/
def rulerLengthMm (W : ℚ) : ℚ := min W 200

/-- The tick loop (`Box-Joint.py` lines 102-113 and its copies):

    mm_val = 0
    while mm_val <= ruler_length_mm + 0.01:
        ... tick and label at mm_val ...
        mm_val += 10

embedded with fuel; since the bound is at most `200.01`, any fuel above 21
makes the embedded loop run to completion. -/
def rulerTicksAux (bound : ℚ) : ℕ → ℚ → List ℚ
  | 0, _ => []
  | n+1, x => if x ≤ bound then x :: rulerTicksAux bound n (x + 10) else []

/-- The millimeter values at which ruler ticks and labels are drawn. -/
def rulerTicks (W : ℚ) : List ℚ :=
  rulerTicksAux (rulerLengthMm W + 1/100) 1000 0

/-! ## Output phase of the combined generator -/

/-- The output-format checkboxes of `Joint-Template-Generator.py`. -/
structure OutputFormats where
  png : Bool
  svg : Bool
  pdf : Bool
  docx : Bool
deriving DecidableEq

/-- One line of the final "Generated:" message, tagged by format. -/
inductive OutMsg where
  | png (path : String)
  | pdf (path : String)
  | svg (path : String)
  | docx (path : String)
deriving DecidableEq

/-- The file-writing tail of `generate_templates`
(`Joint-Template-Generator.py` lines 349-395): the PNG master image is
always saved at `base + ".png"` (line 354) regardless of the PNG checkbox,
which only controls its mention in the result message; then PDF, SVG and
DOCX follow their checkboxes, the DOCX step raising (result `none`, no
message box) when `python-docx` is unavailable, with the files written so
far remaining written.  Returns (files written, messages shown on success). -/
def outputPhase (f : OutputFormats) (base : String) (docxAvailable : Bool) :
    List String × Option (List OutMsg) :=
  let pngPath := base ++ ".png"
  let written1 := [pngPath]
  let msgs1 := if f.png then [OutMsg.png pngPath] else []
  let written2 := written1 ++ (if f.pdf then [base ++ ".pdf"] else [])
  let msgs2 := msgs1 ++ (if f.pdf then [OutMsg.pdf (base ++ ".pdf")] else [])
  let written3 := written2 ++ (if f.svg then [base ++ ".svg"] else [])
  let msgs3 := msgs2 ++ (if f.svg then [OutMsg.svg (base ++ ".svg")] else [])
  if f.docx then
    if docxAvailable then
      (written3 ++ [base ++ ".docx"], some (msgs3 ++ [OutMsg.docx (base ++ ".docx")]))
    else (written3, none)
  else (written3, some msgs3)

/-! ## Helper lemmas: box-joint finger loop -/

/-- With a positive pixel finger width the finger loop runs to completion
given fuel at least `end_x - x`, and the emitted spans tile `[x, end_x)`:
their widths sum to `end_x - x`, each span has width
`min finger_width_px (end_x - its start)`, spans are adjacent left-to-right
from `x`, and the solid flags strictly alternate from the initial phase. -/
lemma boxSegmentsAux_spec (fw endX : ℤ) (hfw : 1 ≤ fw) :
    ∀ (n : ℕ) (x : ℤ) (b : Bool), x ≤ endX → (endX - x).toNat ≤ n →
      ∃ segs, boxSegmentsAux fw endX n x b = some segs ∧
        (segs.map Seg.width).sum = endX - x ∧
        segs.map Seg.solid = altList b segs.length ∧
        (∀ s, segs.head? = some s → s.start = x) ∧
        List.Chain' (fun s t => t.start = s.start + s.width) segs ∧
        (∀ s ∈ segs, s.width = min fw (endX - s.start)) := by
  intro n
  induction n with
  | zero =>
    intro x b hx hn
    have hxe : ¬ x < endX := by omega
    exact ⟨[], by simp [boxSegmentsAux, hxe], by simp; omega, by simp [altList],
      by simp, by simp, by simp⟩
  | succ n ih =>
    intro x b hx hn
    by_cases hlt : x < endX
    · have hm1 : 1 ≤ min fw (endX - x) := le_min hfw (by omega)
      have hm2 : min fw (endX - x) ≤ endX - x := min_le_right _ _
      have hx' : x + min fw (endX - x) ≤ endX := by omega
      have hn' : (endX - (x + min fw (endX - x))).toNat ≤ n := by omega
      obtain ⟨rest, hrest, hsum, halt, hhead, hchain, hwidths⟩ :=
        ih (x + min fw (endX - x)) (!b) hx' hn'
      refine ⟨⟨x, min fw (endX - x), b⟩ :: rest, ?_, ?_, ?_, ?_, ?_, ?_⟩
      · simp [boxSegmentsAux, hlt, hrest]
      · simp only [List.map_cons, List.sum_cons, hsum]; omega
      · simpa [altList] using halt
      · intro s hs
        simp only [List.head?_cons, Option.some_inj] at hs
        simp [← hs]
      · refine List.chain'_cons'.2 ⟨?_, hchain⟩
        intro t ht
        have := hhead t ht
        simp [this]
      · intro s hs
        rcases List.mem_cons.1 hs with h | h
        · subst h; rfl
        · exact hwidths s h
    · have hxe : x = endX := by omega
      exact ⟨[], by simp [boxSegmentsAux, hlt], by simp; omega, by simp [altList],
        by simp, by simp, by simp⟩

/-- With pixel finger width `≤ 0` and the right edge not yet reached, the
finger loop never terminates: for every amount of fuel the embedded loop is
still running (`x` never advances past `end_x`). -/
lemma boxSegmentsAux_none_of_nonpos (fw endX : ℤ) (hfw : fw ≤ 0) :
    ∀ (n : ℕ) (x : ℤ) (b : Bool), x < endX →
      boxSegmentsAux fw endX n x b = none := by
  intro n
  induction n with
  | zero => intro x b hlt; simp [boxSegmentsAux, hlt]
  | succ n ih =>
    intro x b hlt
    have hm : min fw (endX - x) ≤ 0 := le_trans (min_le_left _ _) hfw
    have hlt' : x + min fw (endX - x) < endX := by omega
    simp [boxSegmentsAux, hlt, ih (x + min fw (endX - x)) (!b) hlt']

/-- `pyRound q = z` when `z ≤ q < z + 1/2`. -/
lemma pyRound_of_lt_half (q : ℚ) (z : ℤ) (h1 : (z : ℚ) ≤ q)
    (h2 : q < (z : ℚ) + 1/2) : pyRound q = z := by
  have hf : ⌊q⌋ = z := Int.floor_eq_iff.2 ⟨h1, by linarith⟩
  unfold pyRound
  rw [hf, if_pos (by linarith)]

/-- `pyRound q = z + 1` when `z + 1/2 < q < z + 1`. -/
lemma pyRound_of_gt_half (q : ℚ) (z : ℤ) (h1 : (z : ℚ) + 1/2 < q)
    (h2 : q < (z : ℚ) + 1) : pyRound q = z + 1 := by
  have hf : ⌊q⌋ = z := Int.floor_eq_iff.2 ⟨by linarith, by linarith⟩
  unfold pyRound
  rw [hf, if_neg (by linarith), if_pos (by linarith)]

lemma pxOf_5_300 : pxOf 5 300 = 59 := by
  have h : (5 : ℚ) * mmToPx 300 = 7500/127 := by norm_num [mmToPx]
  unfold pxOf
  rw [h]
  exact pyRound_of_lt_half _ 59 (by norm_num) (by norm_num)

lemma pxOf_100_300 : pxOf 100 300 = 1181 := by
  have h : (100 : ℚ) * mmToPx 300 = 150000/127 := by norm_num [mmToPx]
  unfold pxOf
  rw [h]
  exact pyRound_of_lt_half _ 1181 (by norm_num) (by norm_num)

lemma pxOf_10_300 : pxOf 10 300 = 118 := by
  have h : (10 : ℚ) * mmToPx 300 = 15000/127 := by norm_num [mmToPx]
  unfold pxOf
  rw [h]
  exact pyRound_of_lt_half _ 118 (by norm_num) (by norm_num)

lemma pxOf_40_300 : pxOf 40 300 = 472 := by
  have h : (40 : ℚ) * mmToPx 300 = 60000/127 := by norm_num [mmToPx]
  unfold pxOf
  rw [h]
  exact pyRound_of_lt_half _ 472 (by norm_num) (by norm_num)

lemma pxOf_5_1 : pxOf 5 1 = 0 := by
  have h : (5 : ℚ) * mmToPx 1 = 25/127 := by norm_num [mmToPx]
  unfold pxOf
  rw [h]
  exact pyRound_of_lt_half _ 0 (by norm_num) (by norm_num)

lemma pxOf_100_1 : pxOf 100 1 = 4 := by
  have h : (100 : ℚ) * mmToPx 1 = 500/127 := by norm_num [mmToPx]
  unfold pxOf
  rw [h]
  exact pyRound_of_gt_half _ 3 (by norm_num) (by norm_num)

lemma pxOf_tenth_1 : pxOf (1/10) 1 = 0 := by
  have h : (1/10 : ℚ) * mmToPx 1 = 1/254 := by norm_num [mmToPx]
  unfold pxOf
  rw [h]
  exact pyRound_of_lt_half _ 0 (by norm_num) (by norm_num)

/-- `pyRound` of a nonnegative rational is nonnegative. -/
lemma pyRound_nonneg {q : ℚ} (hq : 0 ≤ q) : 0 ≤ pyRound q := by
  have hf : (0 : ℤ) ≤ ⌊q⌋ := Int.le_floor.2 (by exact_mod_cast hq)
  unfold pyRound
  split
  · exact hf
  · split
    · omega
    · split <;> omega

/-- `pxOf` of a nonnegative length at positive DPI is nonnegative. -/
lemma pxOf_nonneg {mm : ℚ} {dpi : ℤ} (hmm : 0 ≤ mm) (hdpi : 0 < dpi) :
    0 ≤ pxOf mm dpi := by
  apply pyRound_nonneg
  have h1 : (0 : ℚ) ≤ (dpi : ℚ) / (127/5) := by positivity
  exact mul_nonneg hmm h1

/-- C1, amended.  For every box-joint request with
`0 < finger_width_mm ≤ board_width_mm` and `dpi > 0` whose rounded pixel
finger width `finger_width_px = round(finger_width_mm * dpi / 25.4)` is at
least 1, the segmenter terminates and emits segments of width
`min(finger_width_px, remaining_width)` left-to-right from the left edge,
whose widths sum exactly to `board_width_px`, strictly alternating
solid/gap starting from the configured phase (solid first iff
`start_with_finger`).  (As stated the claim also covers requests whose
finger width rounds to 0 pixels, on which the source loop diverges; see the
counterexample.) -/
theorem C1_box_segmenter_amended (Wmm Fmm : ℚ) (dpi : ℤ) (b : Bool)
    (hF : 0 < Fmm) (hFW : Fmm ≤ Wmm) (hdpi : 0 < dpi)
    (hpx : 1 ≤ pxOf Fmm dpi) :
    (boxFingerSegments Wmm Fmm dpi b).isSome = true ∧
    ∀ segs, boxFingerSegments Wmm Fmm dpi b = some segs →
      (segs.map Seg.width).sum = pxOf Wmm dpi ∧
      segs.map Seg.solid = altList b segs.length ∧
      (∀ s, segs.head? = some s → s.start = pxOf 5 dpi) ∧
      List.Chain' (fun s t => t.start = s.start + s.width) segs ∧
      (∀ s ∈ segs, s.width = min (pxOf Fmm dpi) (pxOf 5 dpi + pxOf Wmm dpi - s.start)) := by
  have hW : 0 ≤ pxOf Wmm dpi := pxOf_nonneg (le_of_lt (lt_of_lt_of_le hF hFW)) hdpi
  have hx : pxOf 5 dpi ≤ pxOf 5 dpi + pxOf Wmm dpi := by omega
  have hn : ((pxOf 5 dpi + pxOf Wmm dpi) - pxOf 5 dpi).toNat ≤ (pxOf Wmm dpi).toNat + 1 := by
    omega
  obtain ⟨segs, hsegs, hsum, halt, hhead, hchain, hwidths⟩ :=
    boxSegmentsAux_spec (pxOf Fmm dpi) (pxOf 5 dpi + pxOf Wmm dpi) hpx
      ((pxOf Wmm dpi).toNat + 1) (pxOf 5 dpi) b hx hn
  have heq : boxFingerSegments Wmm Fmm dpi b = some segs := hsegs
  refine ⟨by simp [heq], ?_⟩
  intro segs' hsegs'
  rw [heq] at hsegs'
  obtain rfl : segs = segs' := by simpa using hsegs'
  refine ⟨by omega, halt, hhead, hchain, hwidths⟩

/-- C1, counterexample to the claim as stated.  The request
`board_width = 100 mm`, `finger_width = 0.1 mm`, `dpi = 1` satisfies the
claim's hypotheses (`0 < 0.1 ≤ 100`, `dpi > 0`), yet the segmenter emits no
segment list at all: `finger_width_px` rounds to 0 and the loop never
advances (`boxFingerSegments` returns `none`), so no segments summing to
`board_width_px = 4` exist. -/
theorem C1_box_segmenter_counterexample :
    (0 < (1/10 : ℚ) ∧ (1/10 : ℚ) ≤ 100 ∧ 0 < (1 : ℤ)) ∧
    boxFingerSegments 100 (1/10) 1 true = none := by
  refine ⟨⟨by norm_num, by norm_num, by norm_num⟩, ?_⟩
  simp only [boxFingerSegments, boxFingerSegmentsFuel, pxOf_5_1, pxOf_100_1, pxOf_tenth_1]
  decide

/-- C1 witness: the amended theorem applied at the round-trip request
(100 mm board, 10 mm fingers, 300 DPI, start with finger). -/
theorem C1_box_segmenter_witness :
    (0 < (10 : ℚ) ∧ (10 : ℚ) ≤ 100 ∧ 0 < (300 : ℤ) ∧ 1 ≤ pxOf 10 300) ∧
    (boxFingerSegments 100 10 300 true).isSome = true := by
  refine ⟨⟨by norm_num, by norm_num, by norm_num, by rw [pxOf_10_300]; norm_num⟩, ?_⟩
  exact (C1_box_segmenter_amended 100 10 300 true (by norm_num) (by norm_num)
    (by norm_num) (by rw [pxOf_10_300]; norm_num)).1

/-- C5, counterexample to the claim as stated.  At
`board_width = 100 mm`, `finger_width = 10 mm`, `dpi = 300`,
`start_with_finger = true`, the segmenter does not produce exactly 10
segments: `board_width_px = 1181` is not a multiple of
`finger_width_px = 118`, so an eleventh 1-pixel remainder segment is
emitted. -/
theorem C5_roundtrip_counterexample :
    ((boxFingerSegments 100 10 300 true).getD []).length ≠ 10 := by
  simp only [boxFingerSegments, boxFingerSegmentsFuel, pxOf_5_300, pxOf_100_300, pxOf_10_300]
  decide

/-- C5, amended.  With `board_width = 100 mm`, `finger_width = 10 mm`,
`dpi = 300`, `start_with_finger = true`, the segmenter produces exactly 11
segments: ten alternating segments of 118 px each (the first solid,
starting at the 59 px margin) followed by a final solid remainder segment of
1 px, since `board_width_px = round(100*300/25.4) = 1181 = 10*118 + 1`. -/
theorem C5_roundtrip_amended :
    boxFingerSegments 100 10 300 true = some
      [⟨59, 118, true⟩, ⟨177, 118, false⟩, ⟨295, 118, true⟩,
       ⟨413, 118, false⟩, ⟨531, 118, true⟩, ⟨649, 118, false⟩,
       ⟨767, 118, true⟩, ⟨885, 118, false⟩, ⟨1003, 118, true⟩,
       ⟨1121, 118, false⟩, ⟨1239, 1, true⟩] := by
  simp only [boxFingerSegments, boxFingerSegmentsFuel, pxOf_5_300, pxOf_100_300, pxOf_10_300]
  decide

/-- C7: the claim is right about the intent and the code is wrong.  The
request `board_width = 100 mm`, `finger_width = 0.1 mm`, `dpi = 1` passes
the source's validation (`0 < finger_width ≤ board_width`, positive
dimensions and DPI), but `finger_width_px = int(round(0.1 * 1/25.4)) = 0`,
so `seg_width = min(0, end_x - x) = 0` and the `while x < end_x` loop never
advances `x`: for every amount of fuel the embedded loop is still running,
i.e. the source loop does not terminate. -/
theorem C7_box_loop_divergence :
    (0 < (1/10 : ℚ) ∧ (1/10 : ℚ) ≤ 100 ∧ 0 < (1 : ℤ)) ∧
    ∀ (fuel : ℕ) (b : Bool), boxFingerSegmentsFuel 100 (1/10) 1 b fuel = none := by
  refine ⟨⟨by norm_num, by norm_num, by norm_num⟩, ?_⟩
  intro fuel b
  simp only [boxFingerSegmentsFuel, pxOf_5_1, pxOf_100_1, pxOf_tenth_1]
  exact boxSegmentsAux_none_of_nonpos 0 (0 + 4) le_rfl fuel 0 b (by norm_num)

/-! ## Helper lemmas: dovetail layout -/

lemma dovetailTails_length (leftX W H : ℚ) (N : ℕ) (R : ℚ) :
    (dovetailTails leftX W H N R).length = N := by
  unfold dovetailTails
  rw [List.length_map, List.length_range]

lemma dovetailTails_getD (leftX W H : ℚ) (N : ℕ) (R : ℚ) (i : ℕ) (h : i < N) :
    (dovetailTails leftX W H N R).getD i default =
      mkTail (leftX + pinWidth W N + (i : ℚ) * (tailTopWidth W N + pinWidth W N))
        (leftX + pinWidth W N + (i : ℚ) * (tailTopWidth W N + pinWidth W N)
          + tailTopWidth W N)
        (slopeOffset H R) := by
  unfold dovetailTails
  rw [List.getD_eq_getElem?_getD, List.getElem?_map, List.getElem?_range h]
  rfl

lemma mkTail_leftTopX (lt rt off : ℚ) : (mkTail lt rt off).leftTopX = lt := by
  unfold mkTail
  split <;> rfl

lemma mkTail_rightTopX (lt rt off : ℚ) : (mkTail lt rt off).rightTopX = rt := by
  unfold mkTail
  split <;> rfl

lemma mkTail_bottom_of_clamp (lt rt off : ℚ) (h : rt - off ≤ lt + off) :
    (mkTail lt rt off).leftBottomX = ((lt + off) + (rt - off)) / 2 ∧
    (mkTail lt rt off).rightBottomX = ((lt + off) + (rt - off)) / 2 := by
  unfold mkTail
  rw [if_pos h]
  exact ⟨rfl, rfl⟩

lemma mkTail_bottom_of_noclamp (lt rt off : ℚ) (h : ¬ rt - off ≤ lt + off) :
    (mkTail lt rt off).leftBottomX = lt + off ∧
    (mkTail lt rt off).rightBottomX = rt - off := by
  unfold mkTail
  rw [if_neg h]
  exact ⟨rfl, rfl⟩

lemma totalUnits_pos (N : ℕ) (hN : 1 ≤ N) : 0 < totalUnits N := by
  have : (1 : ℚ) ≤ (N : ℚ) := by exact_mod_cast hN
  unfold totalUnits
  nlinarith

/-- C2: confirmed.  In the millimeter-exact vector layout
(`save_dovetail_svg`), with `N ≥ 1` tails, ratio `R > 0` and a
non-degenerate inset (`2*(H/R)` smaller than one tail unit), every tail has
top width `unit = W / (N*1 + (N+1)*0.5)`, sits `0.5*unit` (one pin width)
after the previous tail top (the first one `0.5*unit` after the left edge),
and its bottom corners are inset by `H / R` on each side. -/
theorem C2_dovetail_layout (W H : ℚ) (N : ℕ) (R : ℚ)
    (_hN : 1 ≤ N) (_hR : 0 < R)
    (hnd : 2 * (H / R) < W / ((N : ℚ) * 1 + ((N : ℚ) + 1) * (1/2))) :
    ∀ i : ℕ, i < N →
      ((dovetailTailsMm W H N R).getD i default).leftTopX =
        (1/2) * (W / ((N : ℚ) * 1 + ((N : ℚ) + 1) * (1/2)))
          + (i : ℚ) * ((3/2) * (W / ((N : ℚ) * 1 + ((N : ℚ) + 1) * (1/2)))) ∧
      ((dovetailTailsMm W H N R).getD i default).rightTopX -
        ((dovetailTailsMm W H N R).getD i default).leftTopX =
          W / ((N : ℚ) * 1 + ((N : ℚ) + 1) * (1/2)) ∧
      ((dovetailTailsMm W H N R).getD i default).leftBottomX -
        ((dovetailTailsMm W H N R).getD i default).leftTopX = H / R ∧
      ((dovetailTailsMm W H N R).getD i default).rightTopX -
        ((dovetailTailsMm W H N R).getD i default).rightBottomX = H / R := by
  intro i hi
  have hget := dovetailTails_getD 0 W H N R i hi
  rw [dovetailTailsMm, hget]
  have hu : unitWidth W N = W / ((N : ℚ) * 1 + ((N : ℚ) + 1) * (1/2)) := rfl
  have hclamp : ¬ ((0 + pinWidth W N + (i : ℚ) * (tailTopWidth W N + pinWidth W N)
        + tailTopWidth W N) - slopeOffset H R ≤
      (0 + pinWidth W N + (i : ℚ) * (tailTopWidth W N + pinWidth W N))
        + slopeOffset H R) := by
    simp only [tailTopWidth, slopeOffset, hu, one_mul]
    intro hcon
    linarith
  obtain ⟨hlb, hrb⟩ := mkTail_bottom_of_noclamp _ _ _ hclamp
  rw [mkTail_leftTopX, mkTail_rightTopX, hlb, hrb]
  refine ⟨?_, ?_, ?_, ?_⟩
  · simp only [pinWidth, tailTopWidth, hu, one_mul]
    ring
  · simp only [tailTopWidth, hu, one_mul]
    ring
  · simp only [slopeOffset]
    ring
  · simp only [slopeOffset]
    ring

/-- C2 witness: the round-trip scenario `board_width = 100 mm`,
`depth = 40 mm`, `N = 3`, ratio `1:6`: tail top width 20 mm, first tail
10 mm (one pin) from the edge, bottom inset `40/6` mm per side. -/
theorem C2_dovetail_layout_witness :
    ((1 ≤ 3) ∧ (0 : ℚ) < 6 ∧
      2 * ((40 : ℚ) / 6) < 100 / ((3 : ℚ) * 1 + ((3 : ℚ) + 1) * (1/2))) ∧
    ((dovetailTailsMm 100 40 3 6).getD 0 default).leftTopX = 10 ∧
    ((dovetailTailsMm 100 40 3 6).getD 0 default).rightTopX -
      ((dovetailTailsMm 100 40 3 6).getD 0 default).leftTopX = 20 ∧
    ((dovetailTailsMm 100 40 3 6).getD 0 default).leftBottomX -
      ((dovetailTailsMm 100 40 3 6).getD 0 default).leftTopX = 40/6 := by
  have h := C2_dovetail_layout 100 40 3 6 (by norm_num) (by norm_num) (by norm_num)
    0 (by norm_num)
  refine ⟨⟨by norm_num, by norm_num, by norm_num⟩, ?_, ?_, ?_⟩
  · have := h.1
    rw [this]
    norm_num
  · have := h.2.1
    rw [this]
    norm_num
  · have := h.2.2.1
    rw [this]

/-- C3: confirmed.  In the pixel-space dovetail layout, whenever the
computed bottom edge of a tail inverts (right bottom bound ≤ left bottom
bound, the source's clamp condition), both bottom bounds are collapsed to
their common midpoint — which equals the midpoint of the tail's top edge —
so the emitted polygon has `left_bottom = right_bottom` (a zero-width
bottom edge) instead of self-intersecting. -/
theorem C3_degenerate_tail_clamp (Wmm Hmm : ℚ) (N : ℕ) (R : ℚ) (dpi : ℤ)
    (hdeg : tailTopWidth (pxOf Wmm dpi) N ≤ 2 * slopeOffset (pxOf Hmm dpi) R) :
    ∀ i : ℕ, i < N →
      ((dovetailTailsPx Wmm Hmm N R dpi).getD i default).leftBottomX =
        ((dovetailTailsPx Wmm Hmm N R dpi).getD i default).rightBottomX ∧
      ((dovetailTailsPx Wmm Hmm N R dpi).getD i default).leftBottomX =
        (((dovetailTailsPx Wmm Hmm N R dpi).getD i default).leftTopX +
          ((dovetailTailsPx Wmm Hmm N R dpi).getD i default).rightTopX) / 2 := by
  intro i hi
  have hget := dovetailTails_getD (pxOf 5 dpi) (pxOf Wmm dpi) (pxOf Hmm dpi) N R i hi
  rw [dovetailTailsPx, hget]
  have hclamp : ((pxOf 5 dpi : ℚ) + pinWidth (pxOf Wmm dpi) N
        + (i : ℚ) * (tailTopWidth (pxOf Wmm dpi) N + pinWidth (pxOf Wmm dpi) N)
        + tailTopWidth (pxOf Wmm dpi) N) - slopeOffset (pxOf Hmm dpi) R ≤
      ((pxOf 5 dpi : ℚ) + pinWidth (pxOf Wmm dpi) N
        + (i : ℚ) * (tailTopWidth (pxOf Wmm dpi) N + pinWidth (pxOf Wmm dpi) N))
        + slopeOffset (pxOf Hmm dpi) R := by
    linarith
  obtain ⟨hlb, hrb⟩ := mkTail_bottom_of_clamp _ _ _ hclamp
  rw [mkTail_leftTopX, mkTail_rightTopX, hlb, hrb]
  exact ⟨rfl, by ring⟩

/-- C3 witness: `board_width = 100 mm`, `depth = 40 mm`, `N = 3`, ratio
`1:1`, 300 DPI: `tail_top_width_px = 1181/5 ≤ 2 * 472 = 2 * offset_px`, so
each tail's emitted bottom edge is a single point. -/
theorem C3_degenerate_tail_clamp_witness :
    tailTopWidth (pxOf 100 300) 3 ≤ 2 * slopeOffset (pxOf 40 300) 1 ∧
    ((dovetailTailsPx 100 40 3 1 300).getD 0 default).leftBottomX =
      ((dovetailTailsPx 100 40 3 1 300).getD 0 default).rightBottomX := by
  have hdeg : tailTopWidth (pxOf 100 300) 3 ≤ 2 * slopeOffset (pxOf 40 300) 1 := by
    rw [pxOf_100_300, pxOf_40_300]
    norm_num [tailTopWidth, unitWidth, totalUnits, slopeOffset]
  exact ⟨hdeg, (C3_degenerate_tail_clamp 100 40 3 1 300 hdeg 0 (by norm_num)).1⟩

/-- C8: confirmed.  For every valid dovetail input (`N ≥ 1`, `R > 0`,
positive board width and depth), exactly `N` tail polygons are produced,
one pin width is reserved before the first tail and after the last, and
consecutive tails never overlap: the horizontal gap between tail `i` and
tail `i+1` is nonnegative at the top edge and at the bottom edge. -/
theorem C8_dovetail_invariants (leftX W H : ℚ) (N : ℕ) (R : ℚ)
    (hW : 0 < W) (hH : 0 < H) (hN : 1 ≤ N) (hR : 0 < R) :
    (dovetailTails leftX W H N R).length = N ∧
    ((dovetailTails leftX W H N R).getD 0 default).leftTopX =
      leftX + pinWidth W N ∧
    leftX + W - ((dovetailTails leftX W H N R).getD (N-1) default).rightTopX =
      pinWidth W N ∧
    ∀ i : ℕ, i + 1 < N →
      ((dovetailTails leftX W H N R).getD i default).rightTopX ≤
        ((dovetailTails leftX W H N R).getD (i+1) default).leftTopX ∧
      ((dovetailTails leftX W H N R).getD i default).rightBottomX ≤
        ((dovetailTails leftX W H N R).getD (i+1) default).leftBottomX := by
  have hTU : 0 < totalUnits N := totalUnits_pos N hN
  have hunit : 0 < unitWidth W N := div_pos hW hTU
  have hpin : 0 < pinWidth W N := by
    rw [pinWidth]
    positivity
  have htop : 0 < tailTopWidth W N := by
    rw [tailTopWidth]
    positivity
  have hoff : 0 < slopeOffset H R := div_pos hH hR
  have hN' : N - 1 + 1 = N := by omega
  have hN1 : ((N - 1 : ℕ) : ℚ) + 1 = (N : ℚ) := by exact_mod_cast hN'
  refine ⟨dovetailTails_length leftX W H N R, ?_, ?_, ?_⟩
  · rw [dovetailTails_getD leftX W H N R 0 (lt_of_lt_of_le Nat.zero_lt_one hN),
      mkTail_leftTopX]
    push_cast
    ring
  · rw [dovetailTails_getD leftX W H N R (N-1) (by omega), mkTail_rightTopX]
    rw [pinWidth, tailTopWidth, unitWidth]
    unfold totalUnits
    rw [← hN1]
    have hM : (0 : ℚ) ≤ ((N - 1 : ℕ) : ℚ) := Nat.cast_nonneg _
    have hTU2 : ((((N - 1 : ℕ) : ℚ) + 1) * 1 + ((((N - 1 : ℕ) : ℚ) + 1) + 1) * (1/2)) ≠ 0 := by
      nlinarith
    field_simp
    ring
  · intro i hi
    have hi1 : i < N := by omega
    have hi2 : i + 1 < N := hi
    rw [dovetailTails_getD leftX W H N R i hi1,
      dovetailTails_getD leftX W H N R (i+1) hi2]
    push_cast
    constructor
    · rw [mkTail_rightTopX, mkTail_leftTopX]
      nlinarith [hpin.le, htop.le]
    · by_cases hclamp :
        (leftX + pinWidth W N + (i : ℚ) * (tailTopWidth W N + pinWidth W N)
          + tailTopWidth W N) - slopeOffset H R ≤
        (leftX + pinWidth W N + (i : ℚ) * (tailTopWidth W N + pinWidth W N))
          + slopeOffset H R
      · have hclamp' :
          (leftX + pinWidth W N + ((i : ℚ) + 1) * (tailTopWidth W N + pinWidth W N)
            + tailTopWidth W N) - slopeOffset H R ≤
          (leftX + pinWidth W N + ((i : ℚ) + 1) * (tailTopWidth W N + pinWidth W N))
            + slopeOffset H R := by linarith
        rw [(mkTail_bottom_of_clamp _ _ _ hclamp).2,
          (mkTail_bottom_of_clamp _ _ _ hclamp').1]
        nlinarith [hpin.le, htop.le]
      · have hclamp' :
          ¬ ((leftX + pinWidth W N + ((i : ℚ) + 1) * (tailTopWidth W N + pinWidth W N)
            + tailTopWidth W N) - slopeOffset H R ≤
          (leftX + pinWidth W N + ((i : ℚ) + 1) * (tailTopWidth W N + pinWidth W N))
            + slopeOffset H R) := by
          rw [not_le] at hclamp ⊢
          linarith
        rw [(mkTail_bottom_of_noclamp _ _ _ hclamp).2,
          (mkTail_bottom_of_noclamp _ _ _ hclamp').1]
        nlinarith [hpin.le, hoff.le]

/-- C8 witness: at `leftX = 0`, `W = 100`, `H = 40`, `N = 3`, `R = 6`:
three tails, and the gap between tails 0 and 1 is nonnegative at top and
bottom. -/
theorem C8_dovetail_invariants_witness :
    ((0 : ℚ) < 100 ∧ (0 : ℚ) < 40 ∧ (1 ≤ 3) ∧ (0 : ℚ) < 6) ∧
    (dovetailTails 0 100 40 3 6).length = 3 ∧
    ((dovetailTails 0 100 40 3 6).getD 0 default).rightTopX ≤
      ((dovetailTails 0 100 40 3 6).getD 1 default).leftTopX ∧
    ((dovetailTails 0 100 40 3 6).getD 0 default).rightBottomX ≤
      ((dovetailTails 0 100 40 3 6).getD 1 default).leftBottomX := by
  have h := C8_dovetail_invariants 0 100 40 3 6 (by norm_num) (by norm_num)
    (by norm_num) (by norm_num)
  exact ⟨⟨by norm_num, by norm_num, by norm_num, by norm_num⟩, h.1,
    (h.2.2.2 0 (by norm_num)).1, (h.2.2.2 0 (by norm_num)).2⟩

/-! ## Helper lemmas: ratio parser -/

/-- `parse_ratio` fails exactly when a required side fails to parse as a
float, or the left side of a colon form is zero. -/
lemma parse_ratio_fails_iff (s : String) :
    ratioFails (parse_ratio s) = true ↔
      (if (pyStrip s.toList).contains ':' = true then
        parseFloat ((splitColon (pyStrip s.toList) []).getD 0 []) = none ∨
        parseFloat ((splitColon (pyStrip s.toList) []).getD 1 []) = none ∨
        parseFloat ((splitColon (pyStrip s.toList) []).getD 0 []) = some 0
      else parseFloat (pyStrip s.toList) = none) := by
  by_cases hc : (pyStrip s.toList).contains ':' = true
  · rw [if_pos hc]
    simp only [parse_ratio, if_pos hc]
    cases h0 : parseFloat ((splitColon (pyStrip s.toList) []).getD 0 []) with
    | none => simp [ratioFails, h0]
    | some l =>
      cases h1 : parseFloat ((splitColon (pyStrip s.toList) []).getD 1 []) with
      | none => simp [ratioFails, h0, h1]
      | some r =>
        by_cases hz : l = 0
        · subst hz
          simp [ratioFails, h0, h1]
        · simp [ratioFails, h0, h1, hz]
  · rw [if_neg hc]
    simp only [parse_ratio, if_neg hc]
    cases h0 : parseFloat (pyStrip s.toList) with
    | none => simp [ratioFails, h0]
    | some v => simp [ratioFails, h0]

/-- C4: confirmed.  The ratio parser maps a bare numeric string to its
value (`"6" ↦ 6.0`), a colon form `"L:R"` to `R/L` (`"1:6" ↦ 6.0`), and
fails with a `ValueError` exactly when the left side of a colon form is
zero (`"0:6"`) or a required side is non-numeric (`"abc"`), where
"numeric" is the embedded model of Python's `float` on decimal literals. -/
theorem C4_ratio_parsing :
    parse_ratio "6" = .ok 6 ∧
    parse_ratio "1:6" = .ok 6 ∧
    parse_ratio "0:6" = .error "Ratio left side cannot be zero." ∧
    parse_ratio "abc" = .error "could not convert string to float" ∧
    ∀ s : String,
      ratioFails (parse_ratio s) = true ↔
        (if (pyStrip s.toList).contains ':' = true then
          parseFloat ((splitColon (pyStrip s.toList) []).getD 0 []) = none ∨
          parseFloat ((splitColon (pyStrip s.toList) []).getD 1 []) = none ∨
          parseFloat ((splitColon (pyStrip s.toList) []).getD 0 []) = some 0
        else parseFloat (pyStrip s.toList) = none) := by
  refine ⟨?_, ?_, ?_, ?_, parse_ratio_fails_iff⟩
  · simp [parse_ratio, pyStrip, parseFloat, parseDecimal, digitsToNat]
  · simp [parse_ratio, pyStrip, splitColon, parseFloat, parseDecimal, digitsToNat]
  · simp [parse_ratio, pyStrip, splitColon, parseFloat, parseDecimal, digitsToNat]
  · simp [parse_ratio, pyStrip, splitColon, parseFloat, parseDecimal, digitsToNat]

/-! ## Helper lemmas: ruler -/

/-- Every emitted tick value is `x + 10k` for some `k` and lies within the
loop bound. -/
lemma rulerTicksAux_mem (bound : ℚ) :
    ∀ (n : ℕ) (x t : ℚ), t ∈ rulerTicksAux bound n x →
      (∃ k : ℕ, t = x + 10 * k) ∧ t ≤ bound := by
  intro n
  induction n with
  | zero => intro x t ht; simp [rulerTicksAux] at ht
  | succ n ih =>
    intro x t ht
    rw [rulerTicksAux] at ht
    by_cases hx : x ≤ bound
    · rw [if_pos hx] at ht
      rcases List.mem_cons.1 ht with h | h
      · exact ⟨⟨0, by simp [h]⟩, h ▸ hx⟩
      · obtain ⟨⟨k, hk⟩, hb⟩ := ih (x + 10) t h
        exact ⟨⟨k + 1, by push_cast [hk]; ring⟩, hb⟩
    · rw [if_neg hx] at ht
      simp at ht

/-- Completeness: every multiple `x + 10k` within the bound is emitted,
provided the fuel covers the bound. -/
lemma rulerTicksAux_complete (bound : ℚ) :
    ∀ (n : ℕ) (x : ℚ) (k : ℕ), x + 10 * k ≤ bound → bound < x + 10 * n →
      (x + 10 * (k : ℚ)) ∈ rulerTicksAux bound n x := by
  intro n
  induction n with
  | zero =>
    intro x k hk hn
    exfalso
    have h0 : (0 : ℚ) ≤ 10 * (k : ℚ) := by positivity
    simp only [Nat.cast_zero, mul_zero, add_zero] at hn
    linarith
  | succ n ih =>
    intro x k hk hn
    have h0 : (0 : ℚ) ≤ 10 * (k : ℚ) := by positivity
    have hx : x ≤ bound := by linarith
    rw [rulerTicksAux, if_pos hx]
    cases k with
    | zero => simp
    | succ k =>
      refine List.mem_cons_of_mem _ ?_
      have hcast : x + 10 * ((k + 1 : ℕ) : ℚ) = (x + 10) + 10 * (k : ℚ) := by
        push_cast
        ring
      rw [hcast]
      refine ih (x + 10) k ?_ ?_
      · rw [← hcast]
        exact hk
      · push_cast at hn
        linarith

/-- Closed form: when exactly the first `k` multiples fit under the bound
and the fuel allows at least `k` iterations, the tick loop emits exactly
the `k` values `x, x+10, ..., x+10(k-1)`. -/
lemma rulerTicksAux_closed_form (bound : ℚ) :
    ∀ (k : ℕ) (n : ℕ) (x : ℚ),
      (∀ j : ℕ, j < k → x + 10 * j ≤ bound) → ¬ (x + 10 * k ≤ bound) → k ≤ n →
      rulerTicksAux bound n x = (List.range k).map (fun (j : ℕ) => x + 10 * (j : ℚ)) := by
  intro k
  induction k with
  | zero =>
    intro n x _ hout _
    simp only [Nat.cast_zero, mul_zero, add_zero] at hout
    cases n with
    | zero => simp [rulerTicksAux]
    | succ n => rw [rulerTicksAux, if_neg hout]; simp
  | succ k ih =>
    intro n x hin hout hn
    obtain ⟨n, rfl⟩ : ∃ m, n = m + 1 := ⟨n - 1, by omega⟩
    have hx : x ≤ bound := by
      have := hin 0 (Nat.succ_pos k)
      simpa using this
    rw [rulerTicksAux, if_pos hx]
    rw [ih n (x + 10) ?_ ?_ (by omega)]
    · rw [List.range_succ_eq_map, List.map_cons, List.map_map]
      refine congrArg₂ _ (by simp) ?_
      refine List.map_congr_left ?_
      intro j _
      simp only [Function.comp_apply]
      push_cast
      ring
    · intro j hj
      have := hin (j + 1) (by omega)
      push_cast at this ⊢
      linarith
    · push_cast at hout ⊢
      intro hcon
      exact hout (by linarith)

/-- C9: confirmed.  Ruler ticks and labels are drawn every 10 mm starting
at 0, never beyond `min(board_width_mm, 200) + 0.01`, and the final
multiple of 10 within the capped length (with the 0.01 mm tolerance) is
always included; for `board_width = 250` the ruler is capped at 200 mm and
there are exactly 21 ticks, `0, 10, ..., 200`, none beyond 200. -/
theorem C9_ruler_ticks :
    (∀ (W : ℚ) (t : ℚ), t ∈ rulerTicks W →
      (∃ k : ℕ, t = 10 * k) ∧ t ≤ rulerLengthMm W + 1/100) ∧
    (∀ (W : ℚ) (k : ℕ), 10 * (k : ℚ) ≤ rulerLengthMm W + 1/100 →
      (10 * (k : ℚ)) ∈ rulerTicks W) ∧
    rulerLengthMm 250 = 200 ∧
    rulerTicks 250 = (List.range 21).map (fun (j : ℕ) => 10 * (j : ℚ)) ∧
    (rulerTicks 250).length = 21 ∧
    (∀ t ∈ rulerTicks 250, t ≤ 200) := by
  have hcap : ∀ W : ℚ, rulerLengthMm W + 1/100 ≤ 200 + 1/100 := by
    intro W
    have : rulerLengthMm W ≤ 200 := min_le_right _ _
    linarith
  have h250 : rulerLengthMm 250 = 200 := by
    rw [rulerLengthMm]
    norm_num
  have hclosed : rulerTicks 250 = (List.range 21).map (fun (j : ℕ) => 10 * (j : ℚ)) := by
    rw [rulerTicks, h250]
    rw [rulerTicksAux_closed_form (200 + 1/100) 21 1000 0 ?_ ?_ (by norm_num)]
    · refine List.map_congr_left ?_
      intro j _
      ring
    · intro j hj
      have hj' : (j : ℚ) ≤ 20 := by exact_mod_cast Nat.lt_succ_iff.mp hj
      linarith
    · push_cast
      norm_num
  refine ⟨?_, ?_, h250, hclosed, ?_, ?_⟩
  · intro W t ht
    obtain ⟨⟨k, hk⟩, hb⟩ := rulerTicksAux_mem _ 1000 0 t ht
    exact ⟨⟨k, by linarith [hk]⟩, hb⟩
  · intro W k hk
    have h := rulerTicksAux_complete (rulerLengthMm W + 1/100) 1000 0 k
      (by linarith) (by have := hcap W; push_cast; linarith)
    rw [rulerTicks]
    simpa using h
  · rw [hclosed]
    simp
  · intro t ht
    rw [hclosed] at ht
    obtain ⟨j, hj, rfl⟩ := List.mem_map.1 ht
    have hj' : (j : ℚ) ≤ 20 := by
      exact_mod_cast Nat.lt_succ_iff.mp (List.mem_range.1 hj)
    linarith

/-- C9 witness: the completeness part applied at `W = 250`, `k = 20`: the
final tick at 200 mm is emitted. -/
theorem C9_ruler_ticks_witness :
    (10 * ((20 : ℕ) : ℚ) ≤ rulerLengthMm 250 + 1/100) ∧
    (10 * ((20 : ℕ) : ℚ)) ∈ rulerTicks 250 := by
  have hle : 10 * ((20 : ℕ) : ℚ) ≤ rulerLengthMm 250 + 1/100 := by
    rw [rulerLengthMm]
    norm_num
  exact ⟨hle, C9_ruler_ticks.2.1 250 20 hle⟩

/-! ## C6: non-positive ratio handling -/

/-- C6, counterexample to the claim as stated.  In `Dovetail-Joint.py` the
ratio value is never validated: the request `board_width = 100`,
`depth = 40`, `tails = 3`, `dpi = 300`, ratio string `"-6"` parses to the
non-positive ratio `-6`, passes the validation block, and the layout runs
to completion producing a saved template — the request is not rejected and
full output is produced. -/
theorem C6_ratio_validation_counterexample :
    parse_ratio_dj "-6" = .ok (-6) ∧ (-6 : ℚ) ≤ 0 ∧
    (dovetailJointGenerate 100 40 3 300 "-6").isSaved = true := by
  have hp : parse_ratio_dj "-6" = .ok (-6) := by
    simp [parse_ratio_dj, pyStrip, parseFloat, parseDecimal, digitsToNat]
  refine ⟨hp, by norm_num, ?_⟩
  norm_num [dovetailJointGenerate, hp, GenResult.isSaved]

/-- C6, amended.  In the combined generator (`generate_templates` of
`Joint-Template-Generator.py`), every dovetail request whose parsed ratio
value is not strictly positive is rejected with a validation error before
any layout computation, and no output is produced; the standalone
`Dovetail-Joint.py` program performs no such check (see the
counterexample). -/
theorem C6_ratio_validation_amended (Wmm Hmm : ℚ) (dpi : ℤ) (anyOutput : Bool)
    (numTails : ℤ) (ratioText : String) (r : ℚ)
    (hp : parse_ratio ratioText = .ok r) (hr : r ≤ 0) :
    (generateTemplatesDovetail Wmm Hmm dpi anyOutput numTails ratioText).isValidationError
      = true := by
  rw [generateTemplatesDovetail]
  split_ifs with h1 h2 h3
  · rfl
  · rfl
  · rfl
  · rw [hp]
    simp only [if_pos hr]
    rfl

/-- C6 witness: the combined generator rejects the ratio `"-6"` request. -/
theorem C6_ratio_validation_witness :
    (parse_ratio "-6" = .ok (-6) ∧ (-6 : ℚ) ≤ 0) ∧
    (generateTemplatesDovetail 100 40 300 true 3 "-6").isValidationError = true := by
  have hp : parse_ratio "-6" = .ok (-6) := by
    simp [parse_ratio, pyStrip, parseFloat, parseDecimal, digitsToNat]
  exact ⟨⟨hp, by norm_num⟩,
    C6_ratio_validation_amended 100 40 300 true 3 "-6" (-6) hp (by norm_num)⟩

/-! ## C10: PNG master image -/

/-- C10: confirmed.  In the combined generator's output phase the PNG master
image is always written at `base + ".png"`, whatever the selected output
formats (and even when the DOCX step subsequently fails); the PNG line
appears in the result message exactly when the PNG format is selected. -/
theorem C10_png_always_written (f : OutputFormats) (base : String)
    (docxAvailable : Bool) :
    (base ++ ".png") ∈ (outputPhase f base docxAvailable).1 ∧
    ∀ msgs, (outputPhase f base docxAvailable).2 = some msgs →
      (OutMsg.png (base ++ ".png") ∈ msgs ↔ f.png = true) := by
  rcases f with ⟨fp, fs, fpd, fd⟩
  cases fp <;> cases fs <;> cases fpd <;> cases fd <;> cases docxAvailable <;>
    simp [outputPhase]

/-- C10 witness: with only SVG selected (PNG unselected) and DOCX available,
the PNG file is still written, and the PNG line is absent from the result
message. -/
theorem C10_png_always_written_witness :
    ("t" ++ ".png") ∈ (outputPhase ⟨false, true, false, false⟩ "t" true).1 ∧
    ¬ (OutMsg.png ("t" ++ ".png") ∈ [OutMsg.svg ("t" ++ ".svg")]) := by
  refine ⟨(C10_png_always_written ⟨false, true, false, false⟩ "t" true).1, ?_⟩
  intro hmem
  have h := (C10_png_always_written ⟨false, true, false, false⟩ "t" true).2
    [OutMsg.svg ("t" ++ ".svg")] (by simp [outputPhase])
  exact Bool.false_ne_true (h.mp hmem)

end Woodworking
